import Mathlib

/-!
Shallow embedding of the survey-bot core from `src/main.py`: the survey
catalog, per-chat conversation state machine (aiogram FSM data), answer
validation and normalization, entry persistence effects, alert evaluation
(`maybe_trigger_alerts`), and the broadcast fan-out (`send_bulk_prompt`).

Conventions of the embedding:
* Python strings are Lean `String`s; `str.strip()` / `str.lower()` are
  modelled by `pyStrip` / `pyLower`, restricted to the ASCII and Cyrillic
  ranges the bot's vocabulary uses.
* The aiogram FSM data dict `{kind, index, answers}` is `SessionData`;
  "no session / not in `Survey.answering`" is `none`.
* Side effects (outgoing messages, sqlite inserts, the Google-Sheets
  mirror attempt, logged errors) are reified as an `Eff` trace.
* External nondeterminism (whether the Sheets append raises, whether a
  transport send raises) is passed in as explicit oracles.
-/

set_option maxRecDepth 4000

namespace TgBot

/-- Model of Python `str.lower()` restricted to ASCII letters and the
Cyrillic block А-Я / Ё actually occurring in the bot's vocabulary. -/
def lowerChar (c : Char) : Char :=
  if 65 ≤ c.toNat ∧ c.toNat ≤ 90 then Char.ofNat (c.toNat + 32)
  else if 0x410 ≤ c.toNat ∧ c.toNat ≤ 0x42F then Char.ofNat (c.toNat + 32)
  else if c.toNat = 0x401 then Char.ofNat 0x451
  else c

def pyLower (s : String) : String :=
  String.mk (s.data.map lowerChar)

def pyIsSpace (c : Char) : Bool :=
  c = ' ' || c = '\t' || c = '\n' || c = '\r' || c = '\x0b' || c = '\x0c'

/-- Model of Python `str.strip()` (common whitespace). -/
def pyStrip (s : String) : String :=
  String.mk (((s.data.dropWhile pyIsSpace).reverse.dropWhile pyIsSpace).reverse)

def digitsVal (cs : List Char) : Option Nat :=
  cs.foldl (fun acc c =>
    match acc with
    | some n => if c.isDigit then some (n * 10 + (c.toNat - 48)) else none
    | none => none) (some 0)

/-- Model of Python `int(str)`: optional surrounding whitespace, optional
sign, one or more decimal digits (digit-group underscores omitted — they
cannot occur in stored answers). `none` models a raised `ValueError`. -/
def pyInt? (s : String) : Option Int :=
  match (pyStrip s).data with
  | [] => none
  | '-' :: rest =>
      if rest.isEmpty then none else (digitsVal rest).map (fun n => -(n : Int))
  | '+' :: rest =>
      if rest.isEmpty then none else (digitsVal rest).map (fun n => (n : Int))
  | cs => (digitsVal cs).map (fun n => (n : Int))

/-! ### Survey catalog (lines 150-196): `(key, prompt label, answer type)` -/

def MORNING_QUESTIONS : List (String × String × String) :=
  [("mood", "Настроение (0–5)", "scale"),
   ("energy", "Энергия (0–5)", "scale"),
   ("sleep_quality", "Сон (качество 0–5)", "scale"),
   ("body_heaviness", "Ватность тела (0–5)", "scale"),
   ("leg_weakness", "Слабость в ногах (0–5)", "scale"),
   ("libido", "Либидо (0–5)", "scale"),
   ("appetite", "Аппетит (0–5)", "scale"),
   ("anxiety", "Тревожность (0–5)", "scale"),
   ("impulsivity", "Импульсивность (0–5)", "scale"),
   ("meds", "Принимал(а) лекарства? (Да/Нет)", "yesno")]

def DAY_QUESTIONS : List (String × String × String) :=
  [("mood", "Настроение (0–5)", "scale"),
   ("energy", "Энергия (0–5)", "scale"),
   ("productivity", "Продуктивность (0–5)", "scale"),
   ("focus", "Концентрация (0–5)", "scale"),
   ("social", "Социализация (0–5)", "scale"),
   ("anxiety", "Тревожность (0–5)", "scale"),
   ("irritability", "Раздражительность (0–5)", "scale"),
   ("impulsivity", "Импульсивность (0–5)", "scale"),
   ("hyperactivity", "Гиперактивность (0–5)", "scale"),
   ("suicidal", "Мысли о смерти (нет/мимолётные/навязчивые)", "suicide")]

def EVENING_QUESTIONS : List (String × String × String) :=
  [("mood", "Настроение (0–5)", "scale"),
   ("energy", "Энергия (0–5)", "scale"),
   ("productivity", "Продуктивность (0–5)", "scale"),
   ("focus", "Концентрация (0–5)", "scale"),
   ("social", "Социализация (0–5)", "scale"),
   ("anxiety", "Тревожность (0–5)", "scale"),
   ("irritability", "Раздражительность (0–5)", "scale"),
   ("tearfulness", "Плаксивость (0–5)", "scale"),
   ("hyperactivity", "Гиперактивность (0–5)", "scale"),
   ("suicidal", "Мысли о смерти (нет/мимолётные/навязчивые)", "suicide")]

/-- `options_for` (lines 189-196). -/
def options_for (type_ : String) : List String :=
  if type_ = "scale" then (List.range 6).map (fun i => toString i)
  else if type_ = "yesno" then ["Да", "Нет"]
  else if type_ = "suicide" then ["нет", "мимолётные", "навязчивые"]
  else []

/-- `get_questions` (lines 212-215): any kind other than morning/day falls
through to the evening list. -/
def get_questions (kind : String) : List (String × String × String) :=
  if kind = "morning" then MORNING_QUESTIONS
  else if kind = "day" then DAY_QUESTIONS
  else EVENING_QUESTIONS

/-! ### Validation and normalization (`handle_answer` lines 353-365) -/

/-- The validity test `handle_answer` applies to the stripped text for the
current question's answer type (an unknown type is accepted unchanged, as
in the source where `valid` stays `True`). -/
def isValidFor (type_ : String) (raw : String) : Bool :=
  let t := pyStrip raw
  if type_ = "scale" then ((List.range 6).map (fun i => toString i)).contains t
  else if type_ = "yesno" then ["да", "нет"].contains (pyLower t)
  else if type_ = "suicide" then ["нет", "мимолётные", "навязчивые"].contains (pyLower t)
  else true

/-- The value `handle_answer` stores on success: the stripped text, with
yes/no canonicalized to «Да»/«Нет» and the tristate answer lower-cased. -/
def normalize (type_ : String) (raw : String) : String :=
  let t := pyStrip raw
  if type_ = "yesno" then (if pyLower t = "да" then "Да" else "Нет")
  else if type_ = "suicide" then pyLower t
  else t

/-- Python dict assignment `answers[key] = text` on an insertion-ordered
dict: overwrite in place when the key exists, else append. -/
def dictInsert (d : List (String × String)) (k v : String) : List (String × String) :=
  if d.any (fun p => p.1 == k) then
    d.map (fun p => if p.1 == k then (p.1, v) else p)
  else d ++ [(k, v)]

/-- Python dict membership / lookup `answers[k]`. -/
def lookup (d : List (String × String)) (k : String) : Option String :=
  (d.find? (fun p => p.1 == k)).map Prod.snd

/-! ### Alert evaluation (`maybe_trigger_alerts`, lines 237-251) -/

inductive AlertKind where
  | risk_keyword
  | high_tension
  deriving DecidableEq

/-- `"suicidal" in answers and answers["suicidal"] != "нет"` (line 239). -/
def riskAlert (answers : List (String × String)) : Bool :=
  match lookup answers "suicidal" with
  | some v => v != "нет"
  | none => false

/-- The `for k in ("anxiety", "irritability", "impulsivity")` loop (lines
241-249): a key that is absent or whose value does not parse as an int is
skipped (`except: pass`); the first value ≥ 4 triggers and breaks. -/
def tensionGo (answers : List (String × String)) : List String → Bool
  | [] => false
  | k :: ks =>
    match lookup answers k with
    | some v =>
        match pyInt? v with
        | some n => if 4 ≤ n then true else tensionGo answers ks
        | none => tensionGo answers ks
    | none => tensionGo answers ks

/-- Pure content of `maybe_trigger_alerts`: which alert messages are sent,
in source order (risk check first, then the tension loop). The whole body
is wrapped in try/except in the source, so it never raises; here it is a
total function. -/
def maybe_trigger_alerts (answers : List (String × String)) : List AlertKind :=
  (if riskAlert answers then [AlertKind.risk_keyword] else []) ++
  (if tensionGo answers ["anxiety", "irritability", "impulsivity"] then
    [AlertKind.high_tension] else [])

def alertText : AlertKind → String
  | AlertKind.risk_keyword =>
      "⚠️ Замечаю ответ про мысли о смерти. Если чувствуешь опасность — пожалуйста, обратись за поддержкой к близким или специалистам. Я рядом."
  | AlertKind.high_tension =>
      "⚠️ Похоже, высокий уровень напряжения. Хочешь дыхательную технику? Напиши /helpme."

/-! ### Conversation engine state and effects -/

/-- The aiogram FSM data dict set by `start_survey` / `handle_answer`:
`{"kind": kind, "index": idx, "answers": {...}}`. -/
structure SessionData where
  kind : String
  index : Nat
  answers : List (String × String)
  deriving DecidableEq

/-- Reified side effects of one handler run.  The keyboard of `send` is
`none` when no `reply_markup` is passed, `some []` for
`ReplyKeyboardRemove()`, and `some opts` for a reply keyboard whose
buttons (rows flattened) are `opts`. -/
inductive Eff where
  | send (text : String) (keyboard : Option (List String))
  | dbAddUser
  | dbInsertEntry (kind : String) (answers : List (String × String))
  | mirrorAppend (kind : String) (answers : List (String × String))
  | logMirrorError
  | statsReply
  deriving DecidableEq

/-- `ask_next_question` (lines 217-235).  `mirrorOk` is the oracle for
whether `append_row` (the Sheets mirror) succeeds; its failure is caught
(`except` at line 227) and only logged.  On completion the source order
is: `save_entry_local`, the mirror attempt, the «Спасибо» confirmation
(with `ReplyKeyboardRemove`), the alert messages, `state.clear()`. -/
def ask_next_question (st : SessionData) (mirrorOk : Bool) :
    Option SessionData × List Eff :=
  if (get_questions st.kind).length ≤ st.index then
    (none,
      Eff.dbInsertEntry st.kind st.answers ::
      (if mirrorOk then [Eff.mirrorAppend st.kind st.answers] else [Eff.logMirrorError]) ++
      Eff.send "Спасибо! Ответы сохранены ✅" (some []) ::
      (maybe_trigger_alerts st.answers).map (fun a => Eff.send (alertText a) none))
  else
    (some st,
     [Eff.send ((get_questions st.kind).getD st.index ("", "", "")).2.1
        (some (options_for ((get_questions st.kind).getD st.index ("", "", "")).2.2 ++
          ["Отмена ❌"]))])

/-- `handle_answer` (lines 341-373), given that the chat is in
`Survey.answering` with FSM data `st`.  `questions[idx]` is total here
because of the preceding bounds check, hence the defaulted `getD`. -/
def handle_answer (st : SessionData) (rawText : String) (mirrorOk : Bool) :
    Option SessionData × List Eff :=
  if (get_questions st.kind).length ≤ st.index then
    (none, [Eff.send "Кажется, опрос уже завершён. Напиши /statistics или начни заново." none])
  else if isValidFor ((get_questions st.kind).getD st.index ("", "", "")).2.2 rawText then
    ask_next_question
      ⟨st.kind, st.index + 1,
       dictInsert st.answers ((get_questions st.kind).getD st.index ("", "", "")).1
         (normalize ((get_questions st.kind).getD st.index ("", "", "")).2.2 rawText)⟩
      mirrorOk
  else
    (some st, [Eff.send "Пожалуйста, выбери один из вариантов на клавиатуре." none])

/-- `start_survey` (lines 207-210): set state to answering with
`{kind, index 0, answers {}}` (overwriting any previous session), then ask
the first question. -/
def start_survey (kind : String) (mirrorOk : Bool) : Option SessionData × List Eff :=
  ask_next_question ⟨kind, 0, []⟩ mirrorOk

/-- One inbound text message routed through the registered handlers, in
registration order (lines 254-373): the `Command` handlers fire in any FSM
state (aiogram 3 applies no implicit state filter), then the
`F.text == "Отмена ❌"` cancel handler, and only then the
`StateFilter(Survey.answering)` answer handler.  A non-command text with
no active session matches no handler at all.  `/statistics` (a read-only
Sheets query and plots) is abstracted as a single `statsReply` effect. -/
def dispatch (st : Option SessionData) (text : String) (mirrorOk : Bool) :
    Option SessionData × List Eff :=
  if text = "/start" then
    (st, [Eff.dbAddUser,
          Eff.send "Привет! Нажми /morning /day /evening, чтобы пройти опрос."
            (some ["/morning", "/day", "/evening"])])
  else if text = "/morning" then start_survey "morning" mirrorOk
  else if text = "/day" then start_survey "day" mirrorOk
  else if text = "/evening" then start_survey "evening" mirrorOk
  else if text = "/helpme" then
    (st, [Eff.send "Быстрая техника: 4-7-8. Вдох на 4, задержка на 7, выдох на 8 — 4 цикла. И можно коротко записать, что тревожит, чтобы 'выгрузить' из головы." none])
  else if text = "/statistics" then (st, [Eff.statsReply])
  else if text = "Отмена ❌" then
    (none, [Eff.send "Опрос прерван." (some [])])
  else
    match st with
    | some s => handle_answer s text mirrorOk
    | none => (none, [])

/-- A sequence of inbound texts fed through `dispatch`, accumulating the
effect trace. -/
def run (mirrorOk : Bool) : Option SessionData → List String → Option SessionData × List Eff
  | st, [] => (st, [])
  | st, t :: ts =>
      let r := dispatch st t mirrorOk
      let rest := run mirrorOk r.1 ts
      (rest.1, r.2 ++ rest.2)

/-- A sequence of answer submissions: each text is handled by
`handle_answer` while a session is active; with no session the answering
handler does not fire and the text is dropped (cf. `dispatch`). -/
def submitSeq (mirrorOk : Bool) : Option SessionData → List String → Option SessionData × List Eff
  | st, [] => (st, [])
  | none, _ :: _ => (none, [])
  | some s, t :: ts =>
      let r := handle_answer s t mirrorOk
      let rest := submitSeq mirrorOk r.1 ts
      (rest.1, r.2 ++ rest.2)

/-- Start a survey of `kind`, then submit the given texts in order. -/
def runSurvey (kind : String) (texts : List String) (mirrorOk : Bool) :
    Option SessionData × List Eff :=
  let s := start_survey kind mirrorOk
  let r := submitSeq mirrorOk s.1 texts
  (r.1, s.2 ++ r.2)

/-- The `(kind, answers)` row a single effect writes to the local durable
store (`save_entry_local`), if any. -/
def entryOf : Eff → Option (String × List (String × String))
  | Eff.dbInsertEntry k a => some (k, a)
  | _ => none

/-- The local durable-store inserts occurring in a trace, in order. -/
def entriesOf (effs : List Eff) : List (String × List (String × String)) :=
  effs.filterMap entryOf

/-! ### Broadcast fan-out (`send_prompt` / `send_bulk_prompt`, lines 376-391) -/

/-- One outbound transport message of the broadcast path. -/
structure BMsg where
  chatId : Int
  text : String
  keyboard : List String
  deriving DecidableEq

/-- The invitation text `send_prompt` looks up for the kind; `none` models
the `KeyError` an unknown kind would raise. -/
def promptTextOf (kind : String) : Option String :=
  if kind = "morning" then some "Утренний опрос. Нажми /morning, чтобы ответить."
  else if kind = "day" then some "Дневной опрос. Нажми /day, чтобы ответить."
  else if kind = "evening" then some "Вечерний опрос. Нажми /evening, чтобы ответить."
  else none

/-- `send_prompt` (lines 376-384): build the per-kind invitation and send
it with a one-button keyboard holding the corresponding command.  `fails`
is the transport oracle: `fails chatId = true` models `bot.send_message`
raising for that chat.  `Except.error` models a raised exception. -/
def send_prompt (chatId : Int) (kind : String) (fails : Int → Bool) : Except String BMsg :=
  match promptTextOf kind with
  | some p =>
      if fails chatId then Except.error "delivery"
      else Except.ok ⟨chatId, p, ["/" ++ kind]⟩
  | none => Except.error "KeyError"

/-- `send_bulk_prompt` (lines 386-391): iterate the roster; each
`send_prompt` call sits in its own try/except, so an error is logged (the
chat id is collected here) and the loop continues.  Returns
(delivered messages, chat ids whose failure was logged); the function is
total — the fire call never raises to its caller. -/
def bulkStep (kind : String) (fails : Int → Bool) (acc : List BMsg × List Int)
    (chatId : Int) : List BMsg × List Int :=
  match send_prompt chatId kind fails with
  | Except.ok msg => (acc.1 ++ [msg], acc.2)
  | Except.error _ => (acc.1, acc.2 ++ [chatId])

def send_bulk_prompt (roster : List Int) (kind : String) (fails : Int → Bool) :
    List BMsg × List Int :=
  roster.foldl (bulkStep kind fails) ([], [])

/-- A broadcast fire over the active-user snapshot, together with the
per-chat FSM session map.  The broadcast path (lines 376-391, reached from
the `/trigger/{kind}` endpoint) only calls `bot.send_message`; it never
touches the dispatcher FSM storage, so the session map passes through
unchanged. -/
def broadcastFire (sessions : Int → Option SessionData) (roster : List Int)
    (kind : String) (fails : Int → Bool) :
    (Int → Option SessionData) × (List BMsg × List Int) :=
  (sessions, send_bulk_prompt roster kind fails)

/-- Concrete all-idle session map (every chat `Idle`). -/
def emptySessions : Int → Option SessionData := fun _ => none

/-- Concrete transport oracle with no failures. -/
def noFail : Int → Bool := fun _ => false

/-- Concrete transport oracle that fails exactly for chat 2. -/
def failOn2 : Int → Bool := fun c => c == 2

/-!
## Helper lemmas
-/

lemma get_questions_cases (kind : String) :
    get_questions kind = MORNING_QUESTIONS ∨ get_questions kind = DAY_QUESTIONS ∨
      get_questions kind = EVENING_QUESTIONS := by
  unfold get_questions
  split
  · exact Or.inl rfl
  · split
    · exact Or.inr (Or.inl rfl)
    · exact Or.inr (Or.inr rfl)

lemma get_questions_length (kind : String) : (get_questions kind).length = 10 := by
  rcases get_questions_cases kind with h | h | h <;> rw [h] <;> decide

lemma keys_nodup (kind : String) :
    ((get_questions kind).map (fun q => q.1)).Nodup := by
  rcases get_questions_cases kind with h | h | h <;> rw [h] <;> decide

lemma types_ok (kind : String) :
    ∀ q ∈ get_questions kind, q.2.2 = "scale" ∨ q.2.2 = "yesno" ∨ q.2.2 = "suicide" := by
  rcases get_questions_cases kind with h | h | h <;> rw [h] <;> decide

/-- A value accepted by validation is normalized into the question type's
closed option set. -/
lemma valid_normalize_mem (t raw : String)
    (ht : t = "scale" ∨ t = "yesno" ∨ t = "suicide")
    (hv : isValidFor t raw = true) :
    normalize t raw ∈ options_for t := by
  rcases ht with h | h | h <;> subst h
  · exact List.mem_of_elem_eq_true hv
  · have hn : normalize "yesno" raw =
        (if pyLower (pyStrip raw) = "да" then "Да" else "Нет") := rfl
    have ho : options_for "yesno" = ["Да", "Нет"] := rfl
    rw [hn, ho]
    split <;> simp
  · exact List.mem_of_elem_eq_true hv

lemma dictInsert_fresh (d : List (String × String)) (k v : String)
    (h : k ∉ d.map Prod.fst) : dictInsert d k v = d ++ [(k, v)] := by
  unfold dictInsert
  rw [if_neg]
  intro hc
  rw [List.any_eq_true] at hc
  obtain ⟨p, hp, he⟩ := hc
  exact h (List.mem_map.mpr ⟨p, hp, by simpa using he⟩)

lemma get_not_mem_take {α : Type} {l : List α} (h : l.Nodup) (i : Nat)
    (hi : i < l.length) : l[i] ∉ l.take i := by
  intro hmem
  have h2 : l[i] ∈ l.drop i := by
    rw [List.drop_eq_getElem_cons hi]
    exact List.mem_cons_self _ _
  have hd : (l.take i).Disjoint (l.drop i) := by
    have := h
    rw [← List.take_append_drop i l] at this
    exact (List.nodup_append.mp this).2.2
  exact hd hmem h2

/-- Freshness of the current question's key: with the answers keys equal
to the keys of the already-asked prefix, the key at the cursor is new. -/
lemma key_fresh (kind : String) (idx : Nat) (hlt : idx < (get_questions kind).length)
    (answers : List (String × String))
    (hmap : answers.map Prod.fst = ((get_questions kind).take idx).map (fun q => q.1)) :
    ((get_questions kind).getD idx ("", "", "")).1 ∉ answers.map Prod.fst := by
  rw [hmap, List.map_take, List.getD_eq_getElem _ _ hlt]
  have hk : (get_questions kind)[idx].1 =
      ((get_questions kind).map (fun q => q.1)).get ⟨idx, by simpa using hlt⟩ := by
    simp
  rw [hk]
  exact get_not_mem_take (keys_nodup kind) idx (by simpa using hlt)

/-! Unfolding lemmas for the handlers. -/

lemma ask_next_done (st : SessionData) (m : Bool)
    (h : (get_questions st.kind).length ≤ st.index) :
    ask_next_question st m =
      (none,
        Eff.dbInsertEntry st.kind st.answers ::
        (if m then [Eff.mirrorAppend st.kind st.answers] else [Eff.logMirrorError]) ++
        Eff.send "Спасибо! Ответы сохранены ✅" (some []) ::
        (maybe_trigger_alerts st.answers).map (fun a => Eff.send (alertText a) none)) := by
  simp only [ask_next_question]
  rw [if_pos h]

lemma ask_next_prompt (st : SessionData) (m : Bool)
    (h : st.index < (get_questions st.kind).length) :
    ask_next_question st m =
      (some st,
       [Eff.send ((get_questions st.kind).getD st.index ("", "", "")).2.1
          (some (options_for ((get_questions st.kind).getD st.index ("", "", "")).2.2 ++
            ["Отмена ❌"]))]) := by
  simp only [ask_next_question]
  rw [if_neg (Nat.not_le.mpr h)]

lemma handle_answer_done (st : SessionData) (raw : String) (m : Bool)
    (h : (get_questions st.kind).length ≤ st.index) :
    handle_answer st raw m =
      (none, [Eff.send "Кажется, опрос уже завершён. Напиши /statistics или начни заново." none]) := by
  simp only [handle_answer]
  rw [if_pos h]

lemma handle_answer_valid (st : SessionData) (raw : String) (m : Bool)
    (h : st.index < (get_questions st.kind).length)
    (hv : isValidFor ((get_questions st.kind).getD st.index ("", "", "")).2.2 raw = true) :
    handle_answer st raw m =
      ask_next_question
        ⟨st.kind, st.index + 1,
         dictInsert st.answers ((get_questions st.kind).getD st.index ("", "", "")).1
           (normalize ((get_questions st.kind).getD st.index ("", "", "")).2.2 raw)⟩ m := by
  simp only [handle_answer]
  rw [if_neg (Nat.not_le.mpr h), if_pos hv]

lemma handle_answer_invalid (st : SessionData) (raw : String) (m : Bool)
    (h : st.index < (get_questions st.kind).length)
    (hv : isValidFor ((get_questions st.kind).getD st.index ("", "", "")).2.2 raw = false) :
    handle_answer st raw m =
      (some st, [Eff.send "Пожалуйста, выбери один из вариантов на клавиатуре." none]) := by
  simp only [handle_answer]
  rw [if_neg (Nat.not_le.mpr h), if_neg (by rw [hv]; exact Bool.false_ne_true)]

/-- The completion trace has exactly one durable-store insert. -/
lemma entriesOf_done (k : String) (a : List (String × String)) (m : Bool)
    (alerts : List AlertKind) :
    entriesOf (Eff.dbInsertEntry k a ::
      (if m then [Eff.mirrorAppend k a] else [Eff.logMirrorError]) ++
      Eff.send "Спасибо! Ответы сохранены ✅" (some []) ::
      alerts.map (fun al => Eff.send (alertText al) none)) = [(k, a)] := by
  cases m <;>
    simp [entriesOf, entryOf, List.filterMap_cons, List.filterMap_append, List.filterMap_map,
      Function.comp]

/-! The session-store invariant: the answers dict holds exactly the keys
of the already-asked catalog prefix, in catalog order, and every stored
value lies in its question's option set. -/

def aligned (s : SessionData) : Prop :=
  s.index ≤ (get_questions s.kind).length ∧
  s.answers.map Prod.fst = ((get_questions s.kind).take s.index).map (fun q => q.1) ∧
  ∀ p ∈ s.answers, ∃ q ∈ get_questions s.kind, p.1 = q.1 ∧ p.2 ∈ options_for q.2.2

def InvS : Option SessionData → Prop
  | none => True
  | some s => aligned s

lemma aligned_start (kind : String) : aligned ⟨kind, 0, []⟩ := by
  refine ⟨Nat.zero_le _, by simp, by simp⟩

/-- Appending the current question's validated, normalized answer
preserves the invariant. -/
lemma aligned_push (s : SessionData) (raw : String)
    (hlt : s.index < (get_questions s.kind).length)
    (hv : isValidFor ((get_questions s.kind).getD s.index ("", "", "")).2.2 raw = true)
    (h : aligned s) :
    aligned ⟨s.kind, s.index + 1,
      dictInsert s.answers ((get_questions s.kind).getD s.index ("", "", "")).1
        (normalize ((get_questions s.kind).getD s.index ("", "", "")).2.2 raw)⟩ := by
  obtain ⟨hle, hmap, hvals⟩ := h
  have hfresh := key_fresh s.kind s.index hlt s.answers hmap
  rw [dictInsert_fresh _ _ _ hfresh]
  have hq : (get_questions s.kind).getD s.index ("", "", "") =
      (get_questions s.kind)[s.index] := List.getD_eq_getElem _ _ hlt
  have hqmem : (get_questions s.kind)[s.index] ∈ get_questions s.kind :=
    List.getElem_mem hlt
  refine ⟨hlt, ?_, ?_⟩
  · rw [List.map_append, hmap, List.take_succ, List.map_append]
    congr 1
    rw [List.getElem?_eq_getElem hlt, hq]
    rfl
  · intro p hp
    rcases List.mem_append.mp hp with hold | hnew
    · exact hvals p hold
    · have hpe : p = (((get_questions s.kind).getD s.index ("", "", "")).1,
          normalize ((get_questions s.kind).getD s.index ("", "", "")).2.2 raw) := by
        simpa using hnew
      refine ⟨(get_questions s.kind)[s.index], hqmem, ?_, ?_⟩
      · rw [hpe, hq]
      · rw [hpe]
        have ht := types_ok s.kind _ hqmem
        rw [hq] at hv ⊢
        exact valid_normalize_mem _ raw ht hv

lemma ask_next_inv (st : SessionData) (m : Bool) (h : aligned st) :
    InvS (ask_next_question st m).1 := by
  by_cases hl : (get_questions st.kind).length ≤ st.index
  · rw [ask_next_done st m hl]; trivial
  · rw [ask_next_prompt st m (Nat.lt_of_not_le hl)]; exact h

lemma handle_answer_inv (s : SessionData) (t : String) (m : Bool) (h : aligned s) :
    InvS (handle_answer s t m).1 := by
  by_cases hl : (get_questions s.kind).length ≤ s.index
  · rw [handle_answer_done s t m hl]; trivial
  · have hlt := Nat.lt_of_not_le hl
    cases hv : isValidFor ((get_questions s.kind).getD s.index ("", "", "")).2.2 t with
    | true =>
        rw [handle_answer_valid s t m hlt hv]
        exact ask_next_inv _ m (aligned_push s t hlt hv h)
    | false =>
        rw [handle_answer_invalid s t m hlt hv]; exact h

lemma start_survey_inv (kind : String) (m : Bool) : InvS (start_survey kind m).1 :=
  ask_next_inv ⟨kind, 0, []⟩ m (aligned_start kind)

lemma dispatch_inv (st : Option SessionData) (t : String) (m : Bool) (h : InvS st) :
    InvS (dispatch st t m).1 := by
  unfold dispatch
  split_ifs
  · exact h
  · exact start_survey_inv "morning" m
  · exact start_survey_inv "day" m
  · exact start_survey_inv "evening" m
  · exact h
  · exact h
  · trivial
  · cases st with
    | none => trivial
    | some s => exact handle_answer_inv s t m h

lemma run_inv (m : Bool) (texts : List String) :
    ∀ st, InvS st → InvS (run m st texts).1 := by
  induction texts with
  | nil => intro st h; exact h
  | cons t ts ih =>
      intro st h
      simp only [run]
      exact ih _ (dispatch_inv st t m h)

lemma take_succ_keys (kind : String) (idx : Nat)
    (hlt : idx < (get_questions kind).length) :
    ((get_questions kind).take (idx + 1)).map (fun q => q.1) =
      ((get_questions kind).take idx).map (fun q => q.1) ++
        [(get_questions kind)[idx].1] := by
  rw [List.take_succ, List.map_append, List.getElem?_eq_getElem hlt]
  rfl

lemma submitSeq_cons (m : Bool) (s : SessionData) (t : String) (ts : List String) :
    submitSeq m (some s) (t :: ts) =
      ((submitSeq m (handle_answer s t m).1 ts).1,
        (handle_answer s t m).2 ++ (submitSeq m (handle_answer s t m).1 ts).2) := rfl

/-- Core round-trip induction: from cursor `idx` with answer keys equal to
the asked prefix, submitting valid answers for all remaining questions
ends the session, and the trace's durable writes are exactly one entry:
the old answers extended, in catalog order, with the normalized values. -/
lemma submitSeq_valid (m : Bool) (kind : String) (vs : List String) :
    ∀ (idx : Nat) (answers : List (String × String)),
      idx + vs.length = (get_questions kind).length →
      vs ≠ [] →
      answers.map Prod.fst = ((get_questions kind).take idx).map (fun q => q.1) →
      (∀ p ∈ ((get_questions kind).drop idx).zip vs, isValidFor p.1.2.2 p.2 = true) →
      (submitSeq m (some ⟨kind, idx, answers⟩) vs).1 = none ∧
      entriesOf (submitSeq m (some ⟨kind, idx, answers⟩) vs).2 =
        [(kind, answers ++ (((get_questions kind).drop idx).zip vs).map
            (fun p => (p.1.1, normalize p.1.2.2 p.2)))] := by
  induction vs with
  | nil => intro idx answers _ hne _ _; exact absurd rfl hne
  | cons v vs' ih =>
    intro idx answers hlen hne hmap hvalid
    have hlt : idx < (get_questions kind).length := by
      simp only [List.length_cons] at hlen; omega
    have hq : (get_questions kind).getD idx ("", "", "") = (get_questions kind)[idx] :=
      List.getD_eq_getElem _ _ hlt
    have hzip : ((get_questions kind).drop idx).zip (v :: vs') =
        ((get_questions kind)[idx], v) ::
          ((get_questions kind).drop (idx + 1)).zip vs' := by
      rw [List.drop_eq_getElem_cons hlt]
      rfl
    have hvhead : isValidFor ((get_questions kind).getD idx ("", "", "")).2.2 v = true := by
      rw [hq]
      exact hvalid ((get_questions kind)[idx], v)
        (by rw [hzip]; exact List.mem_cons_self _ _)
    have hfresh := key_fresh kind idx hlt answers hmap
    have hstep := handle_answer_valid ⟨kind, idx, answers⟩ v m hlt hvhead
    rw [dictInsert_fresh _ _ _ hfresh] at hstep
    dsimp only at hstep
    have hmap' : (answers ++ [(((get_questions kind).getD idx ("", "", "")).1,
          normalize ((get_questions kind).getD idx ("", "", "")).2.2 v)]).map Prod.fst =
        ((get_questions kind).take (idx + 1)).map (fun q => q.1) := by
      rw [List.map_append, hmap, take_succ_keys kind idx hlt, hq]
      rfl
    cases vs' with
    | nil =>
        have hdone : (get_questions kind).length ≤ idx + 1 := by
          simp only [List.length_cons, List.length_nil] at hlen; omega
        rw [ask_next_done _ m hdone] at hstep
        dsimp only at hstep
        rw [submitSeq_cons, hstep]
        dsimp only [submitSeq]
        refine ⟨rfl, ?_⟩
        rw [List.append_nil, entriesOf_done, hzip]
        simp [hq, List.getElem?_eq_getElem hlt]
    | cons v2 vs'' =>
        have hlt2 : idx + 1 < (get_questions kind).length := by
          simp only [List.length_cons] at hlen; omega
        rw [ask_next_prompt _ m hlt2] at hstep
        dsimp only at hstep
        have hvalid' : ∀ p ∈ ((get_questions kind).drop (idx + 1)).zip (v2 :: vs''),
            isValidFor p.1.2.2 p.2 = true := by
          intro p hp
          exact hvalid p (by rw [hzip]; exact List.mem_cons_of_mem _ hp)
        have hlen' : (idx + 1) + (v2 :: vs'').length = (get_questions kind).length := by
          simp only [List.length_cons] at hlen ⊢; omega
        have ihh := ih (idx + 1) _ hlen' (List.cons_ne_nil _ _) hmap' hvalid'
        rw [submitSeq_cons, hstep]
        dsimp only
        refine ⟨ihh.1, ?_⟩
        simp only [entriesOf] at ihh ⊢
        rw [List.filterMap_append]
        have hnone : List.filterMap entryOf
            [Eff.send ((get_questions kind).getD (idx + 1) ("", "", "")).2.1
              (some (options_for ((get_questions kind).getD (idx + 1) ("", "", "")).2.2 ++
                ["Отмена ❌"]))] = [] := rfl
        rw [hnone, List.nil_append, ihh.2, hzip]
        simp [hq, List.getElem?_eq_getElem hlt]

/-- The tension loop fires exactly when some listed key has a value
parsing as an integer ≥ 4. -/
lemma tensionGo_iff (answers : List (String × String)) (ks : List String) :
    tensionGo answers ks = true ↔
      ∃ k, k ∈ ks ∧ ∃ v n, lookup answers k = some v ∧ pyInt? v = some n ∧ 4 ≤ n := by
  induction ks with
  | nil => simp [tensionGo]
  | cons k ks ih =>
      rw [tensionGo]
      cases hl : lookup answers k with
      | none =>
          dsimp only
          rw [ih]
          constructor
          · rintro ⟨k1, hk1, hrest⟩
            exact ⟨k1, List.mem_cons_of_mem _ hk1, hrest⟩
          · rintro ⟨k1, hk1, v, n, hlk, hp, h4⟩
            rcases List.mem_cons.mp hk1 with rfl | hk1
            · rw [hl] at hlk; cases hlk
            · exact ⟨k1, hk1, v, n, hlk, hp, h4⟩
      | some v =>
          dsimp only
          cases hp : pyInt? v with
          | none =>
              dsimp only
              rw [ih]
              constructor
              · rintro ⟨k1, hk1, hrest⟩
                exact ⟨k1, List.mem_cons_of_mem _ hk1, hrest⟩
              · rintro ⟨k1, hk1, v1, n, hlk, hp1, h4⟩
                rcases List.mem_cons.mp hk1 with rfl | hk1
                · rw [hl] at hlk
                  cases hlk
                  rw [hp] at hp1; cases hp1
                · exact ⟨k1, hk1, v1, n, hlk, hp1, h4⟩
          | some n =>
              dsimp only
              by_cases h4 : 4 ≤ n
              · simp only [h4, if_true, true_iff]
                exact ⟨k, List.mem_cons_self _ _, v, n, hl, hp, h4⟩
              · rw [if_neg h4, ih]
                constructor
                · rintro ⟨k1, hk1, hrest⟩
                  exact ⟨k1, List.mem_cons_of_mem _ hk1, hrest⟩
                · rintro ⟨k1, hk1, v1, n1, hlk, hp1, h41⟩
                  rcases List.mem_cons.mp hk1 with rfl | hk1
                  · rw [hl] at hlk
                    cases hlk
                    rw [hp] at hp1
                    cases hp1
                    exact absurd h41 h4
                  · exact ⟨k1, hk1, v1, n1, hlk, hp1, h41⟩

lemma riskAlert_iff (answers : List (String × String)) :
    riskAlert answers = true ↔ ∃ v, lookup answers "suicidal" = some v ∧ v ≠ "нет" := by
  rw [riskAlert]
  cases hl : lookup answers "suicidal" with
  | none =>
      simp
  | some v =>
      simp only [bne_iff_ne]
      constructor
      · intro h; exact ⟨v, rfl, h⟩
      · rintro ⟨v1, he, hne⟩
        cases he
        exact hne

/-- Characterization of the broadcast fold: over any roster, with a kind
whose invitation text exists, the non-failing chats get exactly the
invitation message (in roster order) and the failing chats are exactly
the logged ones. -/
lemma send_bulk_go (kind : String) (p : String) (hp : promptTextOf kind = some p)
    (fails : Int → Bool) (roster : List Int) :
    ∀ acc : List BMsg × List Int,
      roster.foldl (bulkStep kind fails) acc =
        (acc.1 ++ (roster.filter (fun c => !(fails c))).map
            (fun c => ⟨c, p, ["/" ++ kind]⟩),
         acc.2 ++ roster.filter fails) := by
  induction roster with
  | nil => intro acc; simp
  | cons c cs ih =>
      intro acc
      rw [List.foldl_cons]
      have hb : bulkStep kind fails acc c =
          if fails c then (acc.1, acc.2 ++ [c])
          else (acc.1 ++ [(⟨c, p, ["/" ++ kind]⟩ : BMsg)], acc.2) := by
        rw [bulkStep, send_prompt, hp]
        cases hf : fails c <;> simp [hf]
      rw [hb]
      cases hf : fails c <;>
        simp only [if_true, if_false, Bool.false_eq_true, ih, List.filter_cons, hf,
          Bool.not_false, Bool.not_true, if_true, if_false, List.map_cons] <;>
        simp

lemma send_bulk_spec (kind : String) (p : String) (hp : promptTextOf kind = some p)
    (fails : Int → Bool) (roster : List Int) :
    send_bulk_prompt roster kind fails =
      ((roster.filter (fun c => !(fails c))).map (fun c => ⟨c, p, ["/" ++ kind]⟩),
       roster.filter fails) := by
  rw [send_bulk_prompt, send_bulk_go kind p hp fails roster ([], [])]
  simp

lemma promptTextOf_isSome (kind : String) (hk : kind ∈ ["morning", "day", "evening"]) :
    (promptTextOf kind).isSome = true := by
  fin_cases hk <;> decide

/-!
## Claim theorems
-/

/-- C1: For every kind and every sequence of valid answers to all of that
kind's questions submitted in order, completing the survey produces
exactly one Entry whose answers mapping has exactly one key per catalog
question for that kind, in catalog order, and each stored value is the
normalized form of the submitted text (trimmed; yes/no canonicalized to
«Да»/«Нет»; tristate-risk lower-cased), not the raw text. -/
theorem C1_round_trip (kind : String) (_hk : kind ∈ ["morning", "day", "evening"])
    (vs : List String) (m : Bool)
    (hlen : vs.length = (get_questions kind).length)
    (hvalid : ∀ p ∈ (get_questions kind).zip vs, isValidFor p.1.2.2 p.2 = true) :
    (runSurvey kind vs m).1 = none ∧
    entriesOf (runSurvey kind vs m).2 =
      [(kind, ((get_questions kind).zip vs).map (fun p => (p.1.1, normalize p.1.2.2 p.2)))] ∧
    (((get_questions kind).zip vs).map
        (fun p => (p.1.1, normalize p.1.2.2 p.2))).map Prod.fst =
      (get_questions kind).map (fun q => q.1) := by
  have hlen10 := get_questions_length kind
  have hpos : 0 < (get_questions kind).length := by omega
  have hvs : vs ≠ [] := by
    intro he
    rw [he] at hlen
    simp only [List.length_nil] at hlen
    omega
  have hstart : start_survey kind m =
      (some ⟨kind, 0, []⟩,
       [Eff.send ((get_questions kind).getD 0 ("", "", "")).2.1
          (some (options_for ((get_questions kind).getD 0 ("", "", "")).2.2 ++
            ["Отмена ❌"]))]) := by
    rw [start_survey]
    exact ask_next_prompt ⟨kind, 0, []⟩ m hpos
  have hmain := submitSeq_valid m kind vs 0 [] (by simpa using hlen) hvs (by simp)
    (by simpa using hvalid)
  refine ⟨?_, ?_, ?_⟩
  · simp only [runSurvey]
    rw [hstart]
    dsimp only
    exact hmain.1
  · simp only [runSurvey]
    rw [hstart]
    dsimp only
    simp only [entriesOf, List.filterMap_cons, List.filterMap_append, List.filterMap_nil,
      entryOf] at hmain ⊢
    rw [hmain.2]
    simp
  · have h1 : (((get_questions kind).zip vs).map
          (fun p => (p.1.1, normalize p.1.2.2 p.2))).map Prod.fst =
        ((get_questions kind).zip vs).map (fun p => p.1.1) := by
      rw [List.map_map]
      rfl
    have h2 : ((get_questions kind).zip vs).map
          (fun (p : (String × String × String) × String) => p.1.1) =
        (((get_questions kind).zip vs).map Prod.fst).map (fun q => q.1) := by
      rw [List.map_map]
      rfl
    rw [h1, h2, List.map_fst_zip _ _ (le_of_eq hlen.symm)]

/-- Witness for C1: the full morning survey with the last answer given in
upper case, stored canonicalized. -/
theorem C1_round_trip_witness :
    (runSurvey "morning" ["0", "1", "2", "3", "4", "5", "0", "1", "2", "ДА"] true).1 = none ∧
    entriesOf (runSurvey "morning"
        ["0", "1", "2", "3", "4", "5", "0", "1", "2", "ДА"] true).2 =
      [("morning",
        [("mood", "0"), ("energy", "1"), ("sleep_quality", "2"), ("body_heaviness", "3"),
         ("leg_weakness", "4"), ("libido", "5"), ("appetite", "0"), ("anxiety", "1"),
         ("impulsivity", "2"), ("meds", "Да")])] := by
  have h := C1_round_trip "morning" (by decide)
    ["0", "1", "2", "3", "4", "5", "0", "1", "2", "ДА"] true (by decide) (by decide)
  exact ⟨h.1, h.2.1.trans (by decide)⟩

/-- C2 counterexample: a broadcast fire for `day` over the snapshot `[5]`
with a perfectly healthy transport leaves chat 5 with no session at all
(no `start`, no cursor-0 session is created), and the delivered text is
the static invitation, not the first day question's prompt. -/
theorem C2_counterexample :
    (broadcastFire emptySessions [5] "day" noFail).1 5 = none ∧
    ((broadcastFire emptySessions [5] "day" noFail).2.1).map BMsg.text =
      ["Дневной опрос. Нажми /day, чтобы ответить."] ∧
    ((get_questions "day").getD 0 ("", "", "")).2.1 = "Настроение (0–5)" ∧
    "Дневной опрос. Нажми /day, чтобы ответить." ≠ "Настроение (0–5)" :=
  ⟨rfl, by decide, by decide, by decide⟩

/-- C2 (amended): on every broadcast fire for a kind, for each chat_id in
the snapshot of active users, the broadcast delivers the kind's static
invitation message (with a keyboard holding the corresponding command)
through the transport; it does not invoke `start` and leaves every chat's
session unchanged — the survey starts only when the user sends the
command. -/
theorem C2_amended_broadcast (sessions : Int → Option SessionData) (roster : List Int)
    (kind : String) (hk : kind ∈ ["morning", "day", "evening"]) (fails : Int → Bool) :
    (broadcastFire sessions roster kind fails).1 = sessions ∧
    (broadcastFire sessions roster kind fails).2.1 =
      (roster.filter (fun c => !(fails c))).map
        (fun c => ⟨c, (promptTextOf kind).getD "", ["/" ++ kind]⟩) := by
  refine ⟨rfl, ?_⟩
  obtain ⟨p, hp⟩ := Option.isSome_iff_exists.mp (promptTextOf_isSome kind hk)
  show (send_bulk_prompt roster kind fails).1 = _
  rw [send_bulk_spec kind p hp fails roster]
  simp [hp]

/-- Witness for the amended C2: roster `[1, 2]`, delivery to chat 2
failing; chat 1 still receives the invitation and no session changes. -/
theorem C2_amended_broadcast_witness :
    (broadcastFire emptySessions [1, 2] "day" failOn2).1 = emptySessions ∧
    (broadcastFire emptySessions [1, 2] "day" failOn2).2.1 =
      [⟨1, "Дневной опрос. Нажми /day, чтобы ответить.", ["/day"]⟩] := by
  have h := C2_amended_broadcast emptySessions [1, 2] "day" (by decide) failOn2
  exact ⟨h.1, h.2.trans (by decide)⟩

/-- C3: For every completed answer set: (a) a `risk_keyword` alert is
emitted iff the risk-ideation key is present with a value other than the
none-literal «нет»; (b) a `high_tension` alert is emitted iff some key in
{anxiety, irritability, impulsivity} has a value parsing as an integer
≥ 4, and at most one such alert is emitted (no duplicates); (c) the
evaluator is a total function — malformed or missing answers are skipped,
never an error. -/
theorem C3_alert_evaluation (answers : List (String × String)) :
    ((AlertKind.risk_keyword ∈ maybe_trigger_alerts answers) ↔
      (∃ v, lookup answers "suicidal" = some v ∧ v ≠ "нет")) ∧
    ((AlertKind.high_tension ∈ maybe_trigger_alerts answers) ↔
      (∃ k, k ∈ (["anxiety", "irritability", "impulsivity"] : List String) ∧
        ∃ v n, lookup answers k = some v ∧ pyInt? v = some n ∧ 4 ≤ n)) ∧
    (maybe_trigger_alerts answers).count AlertKind.risk_keyword ≤ 1 ∧
    (maybe_trigger_alerts answers).count AlertKind.high_tension ≤ 1 := by
  refine ⟨?_, ?_, ?_, ?_⟩
  · rw [← riskAlert_iff]
    unfold maybe_trigger_alerts
    cases hr : riskAlert answers <;>
      cases ht : tensionGo answers ["anxiety", "irritability", "impulsivity"] <;>
      simp
  · rw [← tensionGo_iff]
    unfold maybe_trigger_alerts
    cases hr : riskAlert answers <;>
      cases ht : tensionGo answers ["anxiety", "irritability", "impulsivity"] <;>
      simp
  · unfold maybe_trigger_alerts
    cases hr : riskAlert answers <;>
      cases ht : tensionGo answers ["anxiety", "irritability", "impulsivity"] <;>
      simp
  · unfold maybe_trigger_alerts
    cases hr : riskAlert answers <;>
      cases ht : tensionGo answers ["anxiety", "irritability", "impulsivity"] <;>
      simp

/-- C4 counterexample: with no active session, the answer text "3" is
dropped without matching any handler — state stays `Idle` (a no-op, as
the claim says) but **no** response of any kind is sent, refuting the
claimed "no survey in progress" rejection message. -/
theorem C4_counterexample : dispatch none "3" true = (none, []) := rfl

/-- C4 (amended): for every chat with no active session, submitting an
answer text (any non-command text) is a no-op on all state and produces
no response at all — the answering handler only fires inside the survey
state, so the message is silently ignored. -/
theorem C4_amended_silent (text : String) (m : Bool)
    (h : text ∉ ["/start", "/morning", "/day", "/evening", "/helpme", "/statistics",
      "Отмена ❌"]) :
    dispatch none text m = (none, []) := by
  simp only [List.mem_cons, List.not_mem_nil, or_false, not_or] at h
  obtain ⟨h1, h2, h3, h4, h5, h6, h7⟩ := h
  unfold dispatch
  rw [if_neg h1, if_neg h2, if_neg h3, if_neg h4, if_neg h5, if_neg h6, if_neg h7]

/-- Witness for the amended C4. -/
theorem C4_amended_silent_witness : dispatch none "5" true = (none, []) :=
  C4_amended_silent "5" true (by decide)

/-- C5: For every active session and every input text failing validation
for the current question's type, `submit_answer` leaves the session
entirely unchanged (same kind, cursor and answers) and emits exactly the
re-prompt; submitting the same invalid text twice yields two identical
rejection events with the cursor still unchanged. -/
theorem C5_invalid_reprompt (s : SessionData) (text : String) (m : Bool)
    (h : s.index < (get_questions s.kind).length)
    (hbad : isValidFor ((get_questions s.kind).getD s.index ("", "", "")).2.2 text = false) :
    handle_answer s text m =
      (some s, [Eff.send "Пожалуйста, выбери один из вариантов на клавиатуре." none]) ∧
    submitSeq m (some s) [text, text] =
      (some s, [Eff.send "Пожалуйста, выбери один из вариантов на клавиатуре." none,
        Eff.send "Пожалуйста, выбери один из вариантов на клавиатуре." none]) := by
  have h1 := handle_answer_invalid s text m h hbad
  refine ⟨h1, ?_⟩
  rw [submitSeq_cons, h1]
  dsimp only
  rw [submitSeq_cons, h1]
  rfl

/-- Witness for C5: a scale question rejecting the out-of-range text "7". -/
theorem C5_invalid_reprompt_witness :
    handle_answer ⟨"morning", 0, []⟩ "7" true =
      (some ⟨"morning", 0, []⟩,
       [Eff.send "Пожалуйста, выбери один из вариантов на клавиатуре." none]) ∧
    submitSeq true (some ⟨"morning", 0, []⟩) ["7", "7"] =
      (some ⟨"morning", 0, []⟩,
       [Eff.send "Пожалуйста, выбери один из вариантов на клавиатуре." none,
        Eff.send "Пожалуйста, выбери один из вариантов на клавиатуре." none]) :=
  C5_invalid_reprompt ⟨"morning", 0, []⟩ "7" true (by decide) (by decide)

/-- C6: For every chat and every kind, issuing the kind's command succeeds
regardless of prior session state — any existing session is overwritten
(last-start-wins, cursor reset to 0, accumulated answers discarded) — and
produces the prompt for the kind's first catalog question. -/
theorem C6_start_overwrites (kind : String) (hk : kind ∈ ["morning", "day", "evening"])
    (prior : Option SessionData) (m : Bool) :
    0 < (get_questions kind).length ∧
    dispatch prior ("/" ++ kind) m =
      (some ⟨kind, 0, []⟩,
       [Eff.send ((get_questions kind).getD 0 ("", "", "")).2.1
          (some (options_for ((get_questions kind).getD 0 ("", "", "")).2.2 ++
            ["Отмена ❌"]))]) := by
  fin_cases hk
  · exact ⟨by decide, rfl⟩
  · exact ⟨by decide, rfl⟩
  · exact ⟨by decide, rfl⟩

/-- Witness for C6: restarting `day` over an in-progress morning session
with one accumulated answer. -/
theorem C6_start_overwrites_witness :
    0 < (get_questions "day").length ∧
    dispatch (some ⟨"morning", 2, [("mood", "1")]⟩) ("/" ++ "day") true =
      (some ⟨"day", 0, []⟩,
       [Eff.send ((get_questions "day").getD 0 ("", "", "")).2.1
          (some (options_for ((get_questions "day").getD 0 ("", "", "")).2.2 ++
            ["Отмена ❌"]))]) :=
  C6_start_overwrites "day" (by decide) (some ⟨"morning", 2, [("mood", "1")]⟩) true

/-- C7: On session completion the entry is written to the local durable
store strictly first (head of the effect trace), the saved confirmation
is emitted for either mirror outcome, the mirror failure is only logged
(never a mirror append, never an exception), and the local store holds
exactly the one entry — the mirror is never the only record. -/
theorem C7_sink_ordering (st : SessionData) (m : Bool)
    (h : (get_questions st.kind).length ≤ st.index) :
    ((ask_next_question st m).2).head? = some (Eff.dbInsertEntry st.kind st.answers) ∧
    Eff.send "Спасибо! Ответы сохранены ✅" (some []) ∈ (ask_next_question st m).2 ∧
    (ask_next_question st m).1 = none ∧
    entriesOf (ask_next_question st m).2 = [(st.kind, st.answers)] ∧
    (ask_next_question st false).2.count Eff.logMirrorError = 1 ∧
    Eff.mirrorAppend st.kind st.answers ∉ (ask_next_question st false).2 := by
  have halert0 : ∀ al : List AlertKind,
      ((al.map (fun a => Eff.send (alertText a) none)).count Eff.logMirrorError) = 0 := by
    intro al
    rw [List.count_eq_zero]
    intro hmem
    rcases List.mem_map.mp hmem with ⟨a, _, he⟩
    cases he
  have halertm : ∀ al : List AlertKind,
      Eff.mirrorAppend st.kind st.answers ∉ al.map (fun a => Eff.send (alertText a) none) := by
    intro al hmem
    rcases List.mem_map.mp hmem with ⟨a, _, he⟩
    cases he
  rw [ask_next_done st m h, ask_next_done st false h]
  dsimp only
  refine ⟨?_, ?_, rfl, ?_, ?_, ?_⟩
  · rfl
  · simp
  · exact entriesOf_done st.kind st.answers m (maybe_trigger_alerts st.answers)
  · simp [List.count_append, List.count_cons, halert0]
  · intro hmem
    have hred : (if (false : Bool) = true then [Eff.mirrorAppend st.kind st.answers]
        else [Eff.logMirrorError]) = [Eff.logMirrorError] := rfl
    rw [hred, List.cons_append, List.singleton_append] at hmem
    simp only [List.mem_cons] at hmem
    rcases hmem with he | he | he | hmem
    · cases he
    · cases he
    · cases he
    · exact halertm _ hmem

/-- Witness for C7: completion of a day survey with one stored answer. -/
theorem C7_sink_ordering_witness :
    ((ask_next_question ⟨"day", 10, [("suicidal", "нет")]⟩ true).2).head? =
      some (Eff.dbInsertEntry "day" [("suicidal", "нет")]) ∧
    Eff.send "Спасибо! Ответы сохранены ✅" (some []) ∈
      (ask_next_question ⟨"day", 10, [("suicidal", "нет")]⟩ true).2 ∧
    (ask_next_question ⟨"day", 10, [("suicidal", "нет")]⟩ true).1 = none ∧
    entriesOf (ask_next_question ⟨"day", 10, [("suicidal", "нет")]⟩ true).2 =
      [("day", [("suicidal", "нет")])] ∧
    (ask_next_question ⟨"day", 10, [("suicidal", "нет")]⟩ false).2.count
      Eff.logMirrorError = 1 ∧
    Eff.mirrorAppend "day" [("suicidal", "нет")] ∉
      (ask_next_question ⟨"day", 10, [("suicidal", "нет")]⟩ false).2 :=
  C7_sink_ordering ⟨"day", 10, [("suicidal", "нет")]⟩ true (by decide)

/-- C8: During a broadcast fan-out over the active-user snapshot, a
delivery failure for any chat is caught and logged (collected, never
re-raised) and every non-failing chat still receives its message; the
fire call is a total function of the roster — it reports no exception
regardless of per-recipient failures. -/
theorem C8_fanout_isolation (roster : List Int) (kind : String)
    (hk : kind ∈ ["morning", "day", "evening"]) (fails : Int → Bool) :
    (send_bulk_prompt roster kind fails).1 =
      (roster.filter (fun c => !(fails c))).map
        (fun c => ⟨c, (promptTextOf kind).getD "", ["/" ++ kind]⟩) ∧
    (send_bulk_prompt roster kind fails).2 = roster.filter fails := by
  obtain ⟨p, hp⟩ := Option.isSome_iff_exists.mp (promptTextOf_isSome kind hk)
  rw [send_bulk_spec kind p hp fails roster]
  constructor
  · simp [hp]
  · rfl

/-- Witness for C8: the failing chat 2 is logged, chat 1 still served. -/
theorem C8_fanout_isolation_witness :
    (send_bulk_prompt [1, 2] "day" failOn2).1 =
      [⟨1, "Дневной опрос. Нажми /day, чтобы ответить.", ["/day"]⟩] ∧
    (send_bulk_prompt [1, 2] "day" failOn2).2 = [2] := by
  have h := C8_fanout_isolation [1, 2] "day" (by decide) failOn2
  exact ⟨h.1.trans (by decide), h.2.trans (by decide)⟩

/-- C9: the cancel button transitions any state to `Idle` unconditionally
(accumulated answers discarded with the session) and emits the
cancellation confirmation; with no active session the session state is
left as `Idle` (no state change). -/
theorem C9_cancel_unconditional (st : Option SessionData) (m : Bool) :
    dispatch st "Отмена ❌" m = (none, [Eff.send "Опрос прерван." (some [])]) := rfl

/-- C10: After any sequence of inbound texts, every live session stores
one answer per already-asked question — the number of stored keys equals
the cursor — and every stored value belongs to the valid option set of
its question's answer type. -/
theorem C10_session_invariant (m : Bool) (texts : List String) (s : SessionData)
    (h : (run m none texts).1 = some s) :
    s.answers.length = s.index ∧
    ∀ p ∈ s.answers, ∃ q ∈ get_questions s.kind, p.1 = q.1 ∧ p.2 ∈ options_for q.2.2 := by
  have hi := run_inv m texts none trivial
  rw [h] at hi
  simp only [InvS] at hi
  obtain ⟨hle, hmap, hvals⟩ := hi
  refine ⟨?_, hvals⟩
  have hlen := congrArg List.length hmap
  rw [List.length_map, List.length_map, List.length_take] at hlen
  omega

/-- Witness for C10: after starting morning and answering "3", the
session is at cursor 1 with exactly the one stored answer. -/
theorem C10_session_invariant_witness :
    (run true none ["/morning", "3"]).1 = some ⟨"morning", 1, [("mood", "3")]⟩ ∧
    (SessionData.mk "morning" 1 [("mood", "3")]).answers.length =
      (SessionData.mk "morning" 1 [("mood", "3")]).index := by
  refine ⟨by decide, ?_⟩
  exact (C10_session_invariant true ["/morning", "3"] ⟨"morning", 1, [("mood", "3")]⟩
    (by decide)).1

end TgBot
